import Mathlib

/-!
Verification of the Epoch timestamp core (src/rinex/src/epoch/mod.rs):
the value type, its parser `Epoch::from_str`, and its four formatters.
The external calendar engine (hifitime) and the sampling-condition flag
enumeration are not part of the shown sources; they are modelled from the
spec at the boundary the spec describes.
-/

namespace Rinex

/-- ASCII whitespace as used by `split_ascii_whitespace` in
`Epoch::from_str`: space, tab, line feed, form feed, carriage return. -/
def isAsciiWhitespace (c : Char) : Bool :=
  c = ' ' || c = '\t' || c = '\n' || c = Char.ofNat 12 || c = '\r'

/-- Split on runs of ASCII whitespace, keeping only non-empty tokens
(`s.split_ascii_whitespace().collect()`). -/
def tokenizeAux : List Char → List Char → List (List Char)
  | [], acc => if acc.isEmpty then [] else [acc.reverse]
  | c :: rest, acc =>
    if isAsciiWhitespace c then
      if acc.isEmpty then tokenizeAux rest [] else acc.reverse :: tokenizeAux rest []
    else
      tokenizeAux rest (c :: acc)

/-- Tokenization step of `Epoch::from_str`. -/
def tokenize (s : List Char) : List (List Char) :=
  tokenizeAux s []

/-- Decimal digit accumulator of `from_str_radix(_, 10)`: fails on the
first non-digit character. -/
def digitsToNat : List Char → Nat → Option Nat
  | [], acc => some acc
  | c :: rest, acc =>
    if c.isDigit then digitsToNat rest (acc * 10 + (c.toNat - 48)) else none

/-- A non-empty all-digit run, as `from_str_radix` requires after the
optional sign. -/
def parseDigits (l : List Char) : Option Nat :=
  if l.isEmpty then none else digitsToNat l 0

/-- `u8::from_str_radix(_, 10)` / `u32::from_str_radix(_, 10)`: an optional
leading plus sign, then at least one decimal digit, value within range. -/
def parseUnsigned (bound : Nat) (l : List Char) : Option Nat :=
  let digits :=
    match l with
    | '+' :: rest => rest
    | _ => l
  match parseDigits digits with
  | some v => if v ≤ bound then some v else none
  | none => none

/-- `u8::from_str_radix(_, 10)`. -/
def parseU8 (l : List Char) : Option Nat :=
  parseUnsigned 255 l

/-- `u32::from_str_radix(_, 10)`. -/
def parseU32 (l : List Char) : Option Nat :=
  parseUnsigned 4294967295 l

/-- `i32::from_str_radix(_, 10)`: optional sign, then digits, value within
the i32 range. -/
def parseI32 (l : List Char) : Option Int :=
  match l with
  | '+' :: rest =>
    match parseDigits rest with
    | some v => if v ≤ 2147483647 then some (v : Int) else none
    | none => none
  | '-' :: rest =>
    match parseDigits rest with
    | some v => if v ≤ 2147483648 then some (-(v : Int)) else none
    | none => none
  | _ =>
    match parseDigits l with
    | some v => if v ≤ 2147483647 then some (v : Int) else none
    | none => none

/-- Modelled from the spec: the sampling-condition flag enumeration
(`flag::EpochFlag`, whose source file is not among the shown sources) —
a closed set of discrete conditions, defaulting to `Ok`. -/
inductive EpochFlag
  | Ok
  | PowerFailure
  | AntennaBeingMoved
  | NewSiteOccupation
  | HeaderInformationFollows
  | ExternalEvent
  | CycleSlip
deriving DecidableEq

/-- Declaration-order rank of a flag, used by the derived ordering. -/
def EpochFlag.rank : EpochFlag → Nat
  | .Ok => 0
  | .PowerFailure => 1
  | .AntennaBeingMoved => 2
  | .NewSiteOccupation => 3
  | .HeaderInformationFollows => 4
  | .ExternalEvent => 5
  | .CycleSlip => 6

/-- Modelled from the spec: `EpochFlag::from_str` recognizes exactly the
single-digit tokens 0 through 6 and fails on anything else. -/
def flagFromStr (l : List Char) : Option EpochFlag :=
  match l with
  | ['0'] => some .Ok
  | ['1'] => some .PowerFailure
  | ['2'] => some .AntennaBeingMoved
  | ['3'] => some .NewSiteOccupation
  | ['4'] => some .HeaderInformationFollows
  | ['5'] => some .ExternalEvent
  | ['6'] => some .CycleSlip
  | _ => none

/-- Modelled from the spec: the flag Display implementation renders the
numeric code of the condition (as seen in the formatter round-trip tests). -/
def EpochFlag.display : EpochFlag → List Char
  | .Ok => ['0']
  | .PowerFailure => ['1']
  | .AntennaBeingMoved => ['2']
  | .NewSiteOccupation => ['3']
  | .HeaderInformationFollows => ['4']
  | .ExternalEvent => ['5']
  | .CycleSlip => ['6']

/-- Modelled from the spec: the calendar engine's time-reference tag.
Parsed epochs always carry the coordinated civil reference (UTC). -/
inductive TimeScale
  | UTC
  | TAI
deriving DecidableEq

/-- Declaration-order rank of a time-reference tag. -/
def TimeScale.rank : TimeScale → Nat
  | .UTC => 0
  | .TAI => 1

/-- Modelled from the spec: proleptic-Gregorian leap-year rule of the
external calendar engine. -/
def isLeap (y : Int) : Bool :=
  (y % 4 == 0 && y % 100 != 0) || y % 400 == 0

/-- Days in a calendar month (1-12). -/
def daysInMonth (leap : Bool) (m : Nat) : Nat :=
  match m with
  | 1 => 31
  | 2 => if leap then 29 else 28
  | 3 => 31
  | 4 => 30
  | 5 => 31
  | 6 => 30
  | 7 => 31
  | 8 => 31
  | 9 => 30
  | 10 => 31
  | 11 => 30
  | 12 => 31
  | _ => 0

/-- Days elapsed in the year before month `m` begins. -/
def daysBeforeMonth (leap : Bool) (m : Nat) : Nat :=
  (match m with
   | 1 => 0
   | 2 => 31
   | 3 => 59
   | 4 => 90
   | 5 => 120
   | 6 => 151
   | 7 => 181
   | 8 => 212
   | 9 => 243
   | 10 => 273
   | 11 => 304
   | 12 => 334
   | _ => 0) + (if leap && 3 ≤ m then 1 else 0)

/-- Days from the timeline origin (0000-01-01) to the start of year `y`
in the proleptic Gregorian calendar. -/
def daysBeforeYear (y : Int) : Int :=
  365 * y + (y + 3) / 4 - (y + 99) / 100 + (y + 399) / 400

/-- Day number of the calendar date `y-m-d` counted from the timeline
origin. -/
def dayNumber (y : Int) (m d : Nat) : Int :=
  daysBeforeYear y + (daysBeforeMonth (isLeap y) m : Int) + (d : Int) - 1

/-- Calendar year containing day number `z`: estimate by average year
length, then correct among the three candidate years. -/
def yearOfDay (z : Int) : Int :=
  if z < daysBeforeYear ((400 * z) / 146097) then (400 * z) / 146097 - 1
  else if z < daysBeforeYear ((400 * z) / 146097 + 1) then (400 * z) / 146097
  else (400 * z) / 146097 + 1

/-- Month and day (1-based) of a 0-based day-of-year. -/
def monthDayOfDoy (leap : Bool) (doy : Nat) : Nat × Nat :=
  if doy < daysBeforeMonth leap 2 then (1, doy + 1)
  else if doy < daysBeforeMonth leap 3 then (2, doy - daysBeforeMonth leap 2 + 1)
  else if doy < daysBeforeMonth leap 4 then (3, doy - daysBeforeMonth leap 3 + 1)
  else if doy < daysBeforeMonth leap 5 then (4, doy - daysBeforeMonth leap 4 + 1)
  else if doy < daysBeforeMonth leap 6 then (5, doy - daysBeforeMonth leap 5 + 1)
  else if doy < daysBeforeMonth leap 7 then (6, doy - daysBeforeMonth leap 6 + 1)
  else if doy < daysBeforeMonth leap 8 then (7, doy - daysBeforeMonth leap 7 + 1)
  else if doy < daysBeforeMonth leap 9 then (8, doy - daysBeforeMonth leap 8 + 1)
  else if doy < daysBeforeMonth leap 10 then (9, doy - daysBeforeMonth leap 9 + 1)
  else if doy < daysBeforeMonth leap 11 then (10, doy - daysBeforeMonth leap 10 + 1)
  else if doy < daysBeforeMonth leap 12 then (11, doy - daysBeforeMonth leap 11 + 1)
  else (12, doy - daysBeforeMonth leap 12 + 1)

/-- Modelled from the spec: the external engine's instant — a signed
nanosecond count on a continuous timeline together with a time-reference
tag (the boundary view of `hifitime::Epoch`). -/
structure HifitimeEpoch where
  duration : Int
  time_scale : TimeScale
deriving DecidableEq

/-- Modelled from the spec: engine construction from explicit calendar
fields at nanosecond resolution; out-of-range sub-day fields are carried
into the nanosecond count (the spec's §3 invariant plus its `0.25`
example show sub-second overflow normalizes rather than failing). -/
def hFromGregorianUtc (y : Int) (m d hh mi ss ns : Nat) : HifitimeEpoch :=
  { duration :=
      dayNumber y m d * 86400000000000
        + (hh : Int) * 3600000000000 + (mi : Int) * 60000000000
        + (ss : Int) * 1000000000 + (ns : Int),
    time_scale := .UTC }

/-- Calendar date of a day number: year, month, day. -/
def civilOfDay (z : Int) : Int × Nat × Nat :=
  (yearOfDay z,
   (monthDayOfDoy (isLeap (yearOfDay z)) ((z - daysBeforeYear (yearOfDay z)).toNat)).1,
   (monthDayOfDoy (isLeap (yearOfDay z)) ((z - daysBeforeYear (yearOfDay z)).toNat)).2)

/-- Hour, minute, second and nanosecond of a nanosecond-of-day counter. -/
def timeOfDayNanos (n : Nat) : Nat × Nat × Nat × Nat :=
  (n / 3600000000000,
   n % 3600000000000 / 60000000000,
   n % 3600000000000 % 60000000000 / 1000000000,
   n % 3600000000000 % 60000000000 % 1000000000)

/-- Modelled from the spec: engine projection back to calendar fields
`(year, month, day, hour, minute, second, nanosecond)`. -/
def hToGregorianUtc (e : HifitimeEpoch) : Int × Nat × Nat × Nat × Nat × Nat × Nat :=
  ((civilOfDay (e.duration / 86400000000000)).1,
   (civilOfDay (e.duration / 86400000000000)).2.1,
   (civilOfDay (e.duration / 86400000000000)).2.2,
   (timeOfDayNanos ((e.duration % 86400000000000).toNat)).1,
   (timeOfDayNanos ((e.duration % 86400000000000).toNat)).2.1,
   (timeOfDayNanos ((e.duration % 86400000000000).toNat)).2.2.1,
   (timeOfDayNanos ((e.duration % 86400000000000).toNat)).2.2.2)

/-- Modelled from the spec: `hifitime::Epoch::to_duration`, the stored
duration of the instant. -/
def hToDuration (e : HifitimeEpoch) : Int :=
  e.duration

/-- Modelled from the spec: `hifitime::Epoch::set`, replacing the stored
duration while keeping the time-reference tag. -/
def hSet (e : HifitimeEpoch) (d : Int) : HifitimeEpoch :=
  { duration := d, time_scale := e.time_scale }

/-- The core Epoch value type: the engine instant together with the
sampling-condition flag. -/
structure Epoch where
  epoch : HifitimeEpoch
  flag : EpochFlag
deriving DecidableEq

/-- Parse-error taxonomy of `Epoch::from_str` (the `Error` enum). The
float-parse variant `SecsNanosError` is never produced by `from_str`. -/
inductive Error
  | FormatError
  | SecsNanosError
  | YearError
  | MonthError
  | DayError
  | HoursError
  | MinutesError
  | SecondsError
  | NanosecsError
deriving DecidableEq

namespace Epoch

/-- `Epoch::new`. -/
def new (epoch : HifitimeEpoch) (flag : EpochFlag) : Epoch :=
  { epoch := epoch, flag := flag }

/-- `Epoch::with_flag`: pure functional rebind of the flag. -/
def with_flag (e : Epoch) (flag : EpochFlag) : Epoch :=
  { epoch := e.epoch, flag := flag }

/-- `Epoch::with_timescale`: relabel the time-reference tag only. -/
def with_timescale (e : Epoch) (ts : TimeScale) : Epoch :=
  { epoch := { duration := e.epoch.duration, time_scale := ts }, flag := e.flag }

/-- `Epoch::from_gregorian_utc`: engine construction with the default
`Ok` flag. -/
def from_gregorian_utc (y : Int) (m d hh mi ss ns : Nat) : Epoch :=
  { epoch := hFromGregorianUtc y m d hh mi ss ns, flag := EpochFlag.Ok }

/-- `Epoch::to_gregorian_utc`: projection to calendar fields. -/
def to_gregorian_utc (e : Epoch) : Int × Nat × Nat × Nat × Nat × Nat × Nat :=
  hToGregorianUtc e.epoch

/-- `Epoch::timescale`. -/
def timescale (e : Epoch) : TimeScale :=
  e.epoch.time_scale

/-- `impl Sub for Epoch`: difference of the two instants, as a Duration
(nanosecond count). -/
def subEpoch (a b : Epoch) : Int :=
  a.epoch.duration - b.epoch.duration

/-- `impl Add<Duration> for Epoch`:
`epoch.set(epoch.to_duration() + duration)`, flag kept. -/
def addDuration (e : Epoch) (d : Int) : Epoch :=
  { epoch := hSet e.epoch (hToDuration e.epoch + d), flag := e.flag }

/-- `impl Sub<Duration> for Epoch`:
`epoch.set(epoch.to_duration() - duration)`, flag kept. -/
def subDuration (e : Epoch) (d : Int) : Epoch :=
  { epoch := hSet e.epoch (hToDuration e.epoch - d), flag := e.flag }

/-- Strict order of the derived `Ord`: lexicographic on the instant
(duration, then time-reference tag) and then the flag. -/
def lt (a b : Epoch) : Prop :=
  a.epoch.duration < b.epoch.duration
    ∨ (a.epoch.duration = b.epoch.duration
        ∧ (a.epoch.time_scale.rank < b.epoch.time_scale.rank
            ∨ (a.epoch.time_scale.rank = b.epoch.time_scale.rank
                ∧ a.flag.rank < b.flag.rank)))

instance (a b : Epoch) : Decidable (lt a b) := by
  unfold lt
  infer_instance

end Epoch

/-- Decimal digits of `n`, most significant first. -/
def natDigits (n : Nat) : List Char :=
  Nat.toDigits 10 n

/-- Left-pad with a fill character to the given minimum width. -/
def padLeft (c : Char) (w : Nat) (l : List Char) : List Char :=
  List.replicate (w - l.length) c ++ l

/-- Rust `{:0w}` on an unsigned value. -/
def fmtNatZero (w : Nat) (n : Nat) : List Char :=
  padLeft '0' w (natDigits n)

/-- Rust `{:>w}` on an unsigned value (right-aligned, space padding). -/
def fmtNatSpace (w : Nat) (n : Nat) : List Char :=
  padLeft ' ' w (natDigits n)

/-- Rust `{:0w}` on a signed value: the sign precedes the zero padding. -/
def fmtIntZero (w : Nat) (v : Int) : List Char :=
  if v < 0 then '-' :: padLeft '0' (w - 1) (natDigits (-v).toNat)
  else padLeft '0' w (natDigits v.toNat)

namespace Epoch

/-- `impl Display for Epoch` (Observation RINEX):
`"{:04} {:02} {:02} {:02} {:02} {:>2}.{:07}  {}"` over
`(y, m, d, hh, mm, ss, nanos / 100, flag)`. -/
def formatDefault (e : Epoch) : List Char :=
  match e.to_gregorian_utc with
  | (y, m, d, hh, mi, ss, ns) =>
    fmtIntZero 4 y ++ [' '] ++ fmtNatZero 2 m ++ [' '] ++ fmtNatZero 2 d
      ++ [' '] ++ fmtNatZero 2 hh ++ [' '] ++ fmtNatZero 2 mi
      ++ [' '] ++ fmtNatSpace 2 ss ++ ['.'] ++ fmtNatZero 7 (ns / 100)
      ++ [' ', ' '] ++ e.flag.display

/-- `impl Octal for Epoch` (old Observation RINEX):
`"{:02} {:>2} {:>2} {:>2} {:>2} {:>2}.{:07}  {}"` over
`(y - 2000, m, d, hh, mm, ss, nanos / 100, flag)`. -/
def formatOctal (e : Epoch) : List Char :=
  match e.to_gregorian_utc with
  | (y, m, d, hh, mi, ss, ns) =>
    fmtIntZero 2 (y - 2000) ++ [' '] ++ fmtNatSpace 2 m ++ [' '] ++ fmtNatSpace 2 d
      ++ [' '] ++ fmtNatSpace 2 hh ++ [' '] ++ fmtNatSpace 2 mi
      ++ [' '] ++ fmtNatSpace 2 ss ++ ['.'] ++ fmtNatZero 7 (ns / 100)
      ++ [' ', ' '] ++ e.flag.display

/-- `impl LowerExp for Epoch` (old NAV formats):
`"{:04} {:>2} {:>2} {:>2} {:>2} {:>2}.{:1}"` over
`(y, m, d, hh, mm, ss, ns)` — note the final argument is the raw
nanosecond counter with minimum width 1. -/
def formatLowerExp (e : Epoch) : List Char :=
  match e.to_gregorian_utc with
  | (y, m, d, hh, mi, ss, ns) =>
    fmtIntZero 4 y ++ [' '] ++ fmtNatSpace 2 m ++ [' '] ++ fmtNatSpace 2 d
      ++ [' '] ++ fmtNatSpace 2 hh ++ [' '] ++ fmtNatSpace 2 mi
      ++ [' '] ++ fmtNatSpace 2 ss ++ ['.'] ++ fmtNatSpace 1 ns

/-- `impl UpperExp for Epoch` (modern NAV formats):
`"{:04} {:>2} {:>2} {:>2} {:>2} {:>2}"` over `(y, m, d, hh, mm, ss)`. -/
def formatUpperExp (e : Epoch) : List Char :=
  match e.to_gregorian_utc with
  | (y, m, d, hh, mi, ss, _) =>
    fmtIntZero 4 y ++ [' '] ++ fmtNatSpace 2 m ++ [' '] ++ fmtNatSpace 2 d
      ++ [' '] ++ fmtNatSpace 2 hh ++ [' '] ++ fmtNatSpace 2 mi
      ++ [' '] ++ fmtNatSpace 2 ss

end Epoch

/-- Split a token at its first `.` (the `items[5].find(".")` slicing):
the characters before the dot and after it. `none` when no dot occurs. -/
def splitAtDot : List Char → Option (List Char × List Char)
  | [] => none
  | c :: rest =>
    if c = '.' then some ([], rest)
    else
      match splitAtDot rest with
      | some (ip, fp) => some (c :: ip, fp)
      | none => none

namespace Epoch

/-- The two-digit-year convention of `Epoch::from_str`: a parsed year
below 100 gets 2000 added. -/
def normYear (y0 : Int) : Int :=
  if y0 < 100 then y0 + 2000 else y0

/-- The seconds-field sub-layouts of `Epoch::from_str` as a standalone
extraction: the unsigned seconds together with the scaled nanosecond
counter (u32 arithmetic, hence reduction modulo 2^32), or `none` when the
field parse fails. -/
def secondsField (t5 : List Char) : Option (Nat × Nat) :=
  match splitAtDot t5 with
  | some (ip, fp) =>
    match parseU8 ip, parseU32 fp with
    | some ss, some f =>
      some (ss, (f * (if t5.length < 7 then 100000000 else 100)) % 4294967296)
    | _, _ => none
  | none =>
    match parseU8 t5 with
    | some ss => some (ss, 0)
    | none => none

/-- Body of `Epoch::from_str` after tokenization: the token-count check,
the positional field parses with their specific error kinds, the
decimal-point sub-layout switch with its `< 7`-character precision
convention (u32 scaling, hence reduction modulo 2^32), and the lenient
optional flag column. -/
def parseTokens (items : List (List Char)) : Except Error Epoch :=
  if items.length ≠ 6 ∧ items.length ≠ 7 then .error .FormatError
  else
    match parseI32 (items.getD 0 []) with
    | none => .error .YearError
    | some y0 =>
      match parseU8 (items.getD 1 []) with
      | none => .error .MonthError
      | some m =>
        match parseU8 (items.getD 2 []) with
        | none => .error .DayError
        | some d =>
          match parseU8 (items.getD 3 []) with
          | none => .error .HoursError
          | some hh =>
            match parseU8 (items.getD 4 []) with
            | none => .error .MinutesError
            | some mi =>
              match splitAtDot (items.getD 5 []) with
              | some (ip, fp) =>
                match parseU8 ip with
                | none => .error .SecondsError
                | some ss =>
                  match parseU32 fp with
                  | none => .error .NanosecsError
                  | some f =>
                    if items.length = 7 then
                      match flagFromStr (items.getD 6 []) with
                      | some fl =>
                        .ok ((Epoch.from_gregorian_utc (normYear y0) m d hh mi ss
                          ((f * (if (items.getD 5 []).length < 7
                                 then 100000000 else 100)) % 4294967296)).with_flag fl)
                      | none =>
                        .ok (Epoch.from_gregorian_utc (normYear y0) m d hh mi ss
                          ((f * (if (items.getD 5 []).length < 7
                                 then 100000000 else 100)) % 4294967296))
                    else
                      .ok (Epoch.from_gregorian_utc (normYear y0) m d hh mi ss
                        ((f * (if (items.getD 5 []).length < 7
                               then 100000000 else 100)) % 4294967296))
              | none =>
                match parseU8 (items.getD 5 []) with
                | some ss => .ok (Epoch.from_gregorian_utc (normYear y0) m d hh mi ss 0)
                | none => .error .SecondsError

/-- `Epoch::from_str`: tokenize the line, then parse the fields. -/
def from_str (s : List Char) : Except Error Epoch :=
  parseTokens (tokenize s)

end Epoch

lemma isLeap_iff (y : Int) :
    isLeap y = true ↔ ((y % 4 = 0 ∧ ¬ y % 100 = 0) ∨ y % 400 = 0) := by
  simp [isLeap]

lemma daysBeforeYear_succ_leap (y : Int) (h : isLeap y = true) :
    daysBeforeYear (y + 1) = daysBeforeYear y + 366 := by
  have hl := (isLeap_iff y).mp h
  unfold daysBeforeYear
  rcases hl with ⟨h4, h100⟩ | h400 <;> omega

lemma daysBeforeYear_succ_nonleap (y : Int) (h : isLeap y = false) :
    daysBeforeYear (y + 1) = daysBeforeYear y + 365 := by
  have hl : ¬ ((y % 4 = 0 ∧ ¬ y % 100 = 0) ∨ y % 400 = 0) := by
    rw [← isLeap_iff, h]
    simp
  push_neg at hl
  rcases hl with ⟨h4, h400⟩
  unfold daysBeforeYear
  by_cases hc : y % 4 = 0
  · have h100 := h4 hc
    omega
  · omega

lemma daysBeforeYear_mono {a b : Int} (h : a ≤ b) : daysBeforeYear a ≤ daysBeforeYear b := by
  unfold daysBeforeYear
  have h4 : (a + 3) / 4 ≤ (b + 3) / 4 := by omega
  have h100 : (a + 99) / 100 ≤ (b + 99) / 100 := by omega
  have h400 : (a + 399) / 400 ≤ (b + 399) / 400 := by omega
  omega

lemma yearOfDay_eq (y z : Int) (h1 : daysBeforeYear y ≤ z) (h2 : z < daysBeforeYear (y + 1)) :
    yearOfDay z = y := by
  have hcand : y - 1 ≤ (400 * z) / 146097 ∧ (400 * z) / 146097 ≤ y + 1 := by
    have e1 : daysBeforeYear y = 365 * y + (y + 3) / 4 - (y + 99) / 100 + (y + 399) / 400 := rfl
    have e2 : daysBeforeYear (y + 1) =
        365 * (y + 1) + (y + 1 + 3) / 4 - (y + 1 + 99) / 100 + (y + 1 + 399) / 400 := rfl
    rw [e1] at h1
    rw [e2] at h2
    omega
  unfold yearOfDay
  split
  · next hc1 =>
      have hy : ¬ y ≥ (400 * z) / 146097 := fun hge =>
        absurd (le_trans (daysBeforeYear_mono hge) h1) (by omega)
      omega
  · split
    · next hc1 hc2 =>
        have hne1 : ¬ y = (400 * z) / 146097 - 1 := fun he => by
          rw [he] at h2
          simp at h2
          omega
        have hne2 : ¬ y = (400 * z) / 146097 + 1 := fun he => by
          rw [he] at h1
          omega
        omega
    · next hc1 hc2 =>
        have hne1 : ¬ y = (400 * z) / 146097 - 1 := fun he => by
          rw [he] at h2
          simp at h2
          omega
        have hne2 : ¬ y = (400 * z) / 146097 := fun he => by
          rw [he] at h2
          omega
        omega

lemma daysInMonth_le (L : Bool) (m : Nat) : daysInMonth L m ≤ 31 := by
  unfold daysInMonth
  split <;> first | omega | (cases L <;> simp)

lemma daysBeforeMonth_add_le (L : Bool) :
    ∀ m < 13, 1 ≤ m → daysBeforeMonth L m + daysInMonth L m ≤ 365 + (if L then 1 else 0) := by
  cases L <;> decide

lemma monthDayOfDoy_eq (L : Bool) :
    ∀ m < 13, ∀ d < 32, (1 ≤ m ∧ 1 ≤ d ∧ d ≤ daysInMonth L m) →
      monthDayOfDoy L (daysBeforeMonth L m + (d - 1)) = (m, d) := by
  cases L <;> decide

lemma civilOfDay_dayNumber (y : Int) (m d : Nat)
    (hm : 1 ≤ m ∧ m ≤ 12) (hd : 1 ≤ d ∧ d ≤ daysInMonth (isLeap y) m) :
    civilOfDay (dayNumber y m d) = (y, m, d) := by
  have hdm31 : daysInMonth (isLeap y) m ≤ 31 := daysInMonth_le _ m
  have hbm := daysBeforeMonth_add_le (isLeap y) m (by omega) (by omega)
  have hlow : daysBeforeYear y ≤ dayNumber y m d := by
    unfold dayNumber
    omega
  have hup : dayNumber y m d < daysBeforeYear (y + 1) := by
    unfold dayNumber
    rcases h : isLeap y
    · rw [daysBeforeYear_succ_nonleap y h]
      rw [h] at hbm hd
      simp at hbm
      omega
    · rw [daysBeforeYear_succ_leap y h]
      rw [h] at hbm hd
      simp at hbm
      omega
  have hy : yearOfDay (dayNumber y m d) = y := yearOfDay_eq y _ hlow hup
  have hdoy : ((dayNumber y m d) - daysBeforeYear y).toNat
      = daysBeforeMonth (isLeap y) m + (d - 1) := by
    unfold dayNumber
    omega
  have hmd := monthDayOfDoy_eq (isLeap y) m (by omega) d (by omega) ⟨hm.1, hd.1, hd.2⟩
  unfold civilOfDay
  rw [hy, hdoy, hmd]

lemma timeOfDayNanos_eq (hh mi ss ns : Nat)
    (hhh : hh < 24) (hmi : mi < 60) (hss : ss < 60) (hns : ns < 1000000000) :
    timeOfDayNanos (hh * 3600000000000 + mi * 60000000000 + ss * 1000000000 + ns)
      = (hh, mi, ss, ns) := by
  unfold timeOfDayNanos
  simp only [Prod.mk.injEq]
  refine ⟨by omega, by omega, by omega, by omega⟩

/-- Engine round trip: construction from calendar fields in canonical
ranges projects back to the same fields. -/
lemma hToGregorianUtc_hFromGregorianUtc (y : Int) (m d hh mi ss ns : Nat)
    (hm : 1 ≤ m ∧ m ≤ 12) (hd : 1 ≤ d ∧ d ≤ daysInMonth (isLeap y) m)
    (hhh : hh < 24) (hmi : mi < 60) (hss : ss < 60) (hns : ns < 1000000000) :
    hToGregorianUtc (hFromGregorianUtc y m d hh mi ss ns) = (y, m, d, hh, mi, ss, ns) := by
  have hdur : (hFromGregorianUtc y m d hh mi ss ns).duration
      = dayNumber y m d * 86400000000000
        + ((hh : Int) * 3600000000000 + (mi : Int) * 60000000000
            + (ss : Int) * 1000000000 + (ns : Int)) := by
    unfold hFromGregorianUtc dayNumber
    simp
    ring
  have hdiv : (hFromGregorianUtc y m d hh mi ss ns).duration / 86400000000000
      = dayNumber y m d := by
    rw [hdur]
    omega
  have hmod : ((hFromGregorianUtc y m d hh mi ss ns).duration % 86400000000000).toNat
      = hh * 3600000000000 + mi * 60000000000 + ss * 1000000000 + ns := by
    rw [hdur]
    omega
  have hciv := civilOfDay_dayNumber y m d hm hd
  have htod := timeOfDayNanos_eq hh mi ss ns hhh hmi hss hns
  unfold hToGregorianUtc
  rw [hdiv, hmod, hciv, htod]

/-- Success of the token-level parser determines every field: the parse
equations, the instant, and the flag policy. -/
lemma parseTokens_ok_shape (items : List (List Char)) (e : Epoch)
    (h : Epoch.parseTokens items = .ok e) :
    (items.length = 6 ∨ items.length = 7)
    ∧ ∃ y0 m d hh mi ss ns,
        parseI32 (items.getD 0 []) = some y0
        ∧ parseU8 (items.getD 1 []) = some m
        ∧ parseU8 (items.getD 2 []) = some d
        ∧ parseU8 (items.getD 3 []) = some hh
        ∧ parseU8 (items.getD 4 []) = some mi
        ∧ Epoch.secondsField (items.getD 5 []) = some (ss, ns)
        ∧ e.epoch = hFromGregorianUtc (Epoch.normYear y0) m d hh mi ss ns
        ∧ (splitAtDot (items.getD 5 []) = none → e.flag = .Ok)
        ∧ (splitAtDot (items.getD 5 []) ≠ none →
            e.flag = (if items.length = 7
                      then (flagFromStr (items.getD 6 [])).getD .Ok
                      else .Ok)) := by
  unfold Epoch.parseTokens at h
  split at h
  · exact absurd h (by simp)
  · next hlen =>
    refine ⟨by omega, ?_⟩
    split at h
    · exact absurd h (by simp)
    · next y0 hy0 =>
      split at h
      · exact absurd h (by simp)
      · next m hm =>
        split at h
        · exact absurd h (by simp)
        · next d hd =>
          split at h
          · exact absurd h (by simp)
          · next hh hhh =>
            split at h
            · exact absurd h (by simp)
            · next mi hmi =>
              split at h
              · -- dot present
                next ip fp hdot =>
                  split at h
                  · exact absurd h (by simp)
                  · next ss hss =>
                    split at h
                    · exact absurd h (by simp)
                    · next f hf =>
                      refine ⟨y0, m, d, hh, mi, ss,
                        (f * (if (items.getD 5 []).length < 7
                              then 100000000 else 100)) % 4294967296,
                        hy0, hm, hd, hhh, hmi, ?_, ?_, ?_, ?_⟩
                      · simp only [Epoch.secondsField, hdot, hss, hf]
                      · -- instant equation, by cases on the flag branch
                        split at h
                        · split at h
                          · next fl hfl =>
                              cases h
                              rfl
                          · next hfl =>
                              cases h
                              rfl
                        · cases h
                          rfl
                      · intro hnone
                        rw [hdot] at hnone
                        exact absurd hnone (by simp)
                      · intro _
                        split at h
                        · next h7 =>
                            rw [if_pos h7]
                            split at h
                            · next fl hfl =>
                                cases h
                                rw [hfl]
                                rfl
                            · next hfl =>
                                cases h
                                rw [hfl]
                                rfl
                        · next h7 =>
                            rw [if_neg h7]
                            cases h
                            rfl
              · -- no dot
                next hdot =>
                  split at h
                  · next ss hss =>
                      refine ⟨y0, m, d, hh, mi, ss, 0,
                        hy0, hm, hd, hhh, hmi, ?_, ?_, ?_, ?_⟩
                      · simp only [Epoch.secondsField, hdot, hss]
                      · cases h
                        rfl
                      · intro _
                        cases h
                        rfl
                      · intro hne
                        exact absurd hdot hne
                  · exact absurd h (by simp)

lemma parseTokens_ne_formatError (items : List (List Char))
    (h : items.length = 6 ∨ items.length = 7) :
    Epoch.parseTokens items ≠ .error .FormatError := by
  unfold Epoch.parseTokens
  rw [if_neg (by omega)]
  (repeat' split) <;> simp

lemma Epoch.eq_mk (e : Epoch) (E : HifitimeEpoch) (F : EpochFlag)
    (h1 : e.epoch = E) (h2 : e.flag = F) : e = ⟨E, F⟩ := by
  obtain ⟨a, b⟩ := e
  simp only at h1 h2
  rw [h1, h2]

/-- C10: parsing the spec's end-to-end example line yields calendar
2021-12-21 00:00:30.0 with flag PowerFailure, and the legacy-observation
(two-digit-year) formatter reproduces the line byte for byte. -/
theorem C10_end_to_end_example :
    Epoch.from_str (" 21 12 21  0  0 30.0000000  1".data)
      = .ok ((Epoch.from_gregorian_utc 2021 12 21 0 0 30 0).with_flag .PowerFailure)
    ∧ Epoch.to_gregorian_utc
        ((Epoch.from_gregorian_utc 2021 12 21 0 0 30 0).with_flag .PowerFailure)
      = (2021, 12, 21, 0, 0, 30, 0)
    ∧ ((Epoch.from_gregorian_utc 2021 12 21 0 0 30 0).with_flag .PowerFailure).flag
      = EpochFlag.PowerFailure
    ∧ Epoch.formatOctal ((Epoch.from_gregorian_utc 2021 12 21 0 0 30 0).with_flag .PowerFailure)
      = ("21 12 21  0  0 30.0000000  1".data) := by
  refine ⟨rfl, rfl, rfl, rfl⟩

/-- C4 evaluation: the legacy-navigation formatter writes the raw
nanosecond counter (here 100000000) after the decimal point instead of a
single tenths digit. -/
theorem C4_lowerExp_eval :
    Epoch.formatLowerExp (Epoch.from_gregorian_utc 2020 12 31 23 45 0 100000000)
      = ("2020 12 31 23 45  0.100000000".data)
    ∧ Epoch.formatLowerExp (Epoch.from_gregorian_utc 2020 12 31 23 45 0 100000000)
      ≠ ("2020 12 31 23 45  0.1".data) := by
  refine ⟨rfl, by decide⟩

/-- C3: the nanosecond component of the calendar projection of any Epoch
lies below 1000000000; in particular the legacy-layout token "0.25"
(scaled to 2500000000 ns) normalizes into range. -/
theorem C3_nanosecond_bound :
    (∀ e : Epoch, (Epoch.to_gregorian_utc e).2.2.2.2.2.2 < 1000000000)
    ∧ Epoch.from_str ("21 1 1 0 0 0.25".data)
      = .ok (Epoch.from_gregorian_utc 2021 1 1 0 0 0 2500000000)
    ∧ (Epoch.to_gregorian_utc (Epoch.from_gregorian_utc 2021 1 1 0 0 0 2500000000)).2.2.2.2.2.2
      = 500000000 := by
  refine ⟨fun e => ?_, rfl, rfl⟩
  have h : (Epoch.to_gregorian_utc e).2.2.2.2.2.2
      = (e.epoch.duration % 86400000000000).toNat
          % 3600000000000 % 60000000000 % 1000000000 := rfl
  rw [h]
  exact Nat.mod_lt _ (by omega)

/-- C1 counterexample: a short seconds token with fractional substring
"9999" parses successfully, but u32 scaling wraps modulo 2^32, so the
nanosecond value is 3467587328, not 9999 * 100000000 = 999900000000. -/
theorem C1_cex_u32_wrap :
    Epoch.from_str ("0 1 1 0 0 0.9999".data)
      = .ok (Epoch.from_gregorian_utc 2000 1 1 0 0 0 3467587328)
    ∧ Epoch.from_gregorian_utc 2000 1 1 0 0 0 3467587328
      ≠ Epoch.from_gregorian_utc 2000 1 1 0 0 0 999900000000
    ∧ (9999 * 100000000) % 4294967296 = 3467587328 := by
  refine ⟨rfl, by decide, by norm_num⟩

/-- C2 counterexample: a 7-token line whose seconds token has no decimal
point ignores a perfectly valid flag token — the flag stays Ok instead of
becoming AntennaBeingMoved. -/
theorem C2_cex_no_dot_ignores_flag :
    Epoch.from_str ("2021 1 1 0 0 30 2".data)
      = .ok (Epoch.from_gregorian_utc 2021 1 1 0 0 30 0)
    ∧ (Epoch.from_gregorian_utc 2021 1 1 0 0 30 0).flag = EpochFlag.Ok
    ∧ flagFromStr ("2".data) = some EpochFlag.AntennaBeingMoved
    ∧ EpochFlag.Ok ≠ EpochFlag.AntennaBeingMoved := by
  refine ⟨rfl, rfl, rfl, by decide⟩

/-- C8: adding then subtracting a duration (and vice versa) returns the
original Epoch exactly, both operations preserve the flag, and the
Epoch-minus-Epoch duration ignores both flags. -/
theorem C8_arithmetic_identity (e b : Epoch) (d : Int) (f g : EpochFlag) :
    Epoch.subDuration (Epoch.addDuration e d) d = e
    ∧ Epoch.addDuration (Epoch.subDuration e d) d = e
    ∧ (Epoch.addDuration e d).flag = e.flag
    ∧ (Epoch.subDuration e d).flag = e.flag
    ∧ Epoch.subEpoch (e.with_flag f) (b.with_flag g) = Epoch.subEpoch e b := by
  obtain ⟨⟨dur, ts⟩, fl⟩ := e
  obtain ⟨⟨dur2, ts2⟩, fl2⟩ := b
  refine ⟨?_, ?_, rfl, rfl, rfl⟩ <;>
    (simp only [Epoch.addDuration, Epoch.subDuration, hSet, hToDuration,
      Epoch.mk.injEq, HifitimeEpoch.mk.injEq, and_true]
     omega)

/-- C5: a line whose token count is neither 6 nor 7 fails with exactly the
format-mismatch error, and a line with 6 or 7 tokens never produces it. -/
theorem C5_token_count (s : List Char) :
    (((tokenize s).length ≠ 6 ∧ (tokenize s).length ≠ 7) →
      Epoch.from_str s = .error .FormatError)
    ∧ (((tokenize s).length = 6 ∨ (tokenize s).length = 7) →
      Epoch.from_str s ≠ .error .FormatError) := by
  constructor
  · intro hc
    unfold Epoch.from_str Epoch.parseTokens
    rw [if_pos hc]
  · intro hc
    exact parseTokens_ne_formatError _ hc

/-- C5 witness: a 3-token line fails with the format-mismatch error, and a
6-token line does not. -/
theorem C5_token_count_witness :
    Epoch.from_str ("1 2 3".data) = .error .FormatError
    ∧ Epoch.from_str ("20 12 31 23 45  0.0".data) ≠ .error .FormatError := by
  exact ⟨(C5_token_count ("1 2 3".data)).1 (by decide),
    (C5_token_count ("20 12 31 23 45  0.0".data)).2 (by decide)⟩

lemma tsRank_injective (x y : TimeScale) (h : x.rank = y.rank) : x = y := by
  cases x <;> cases y <;> simp_all [TimeScale.rank]

lemma flagRank_injective (x y : EpochFlag) (h : x.rank = y.rank) : x = y := by
  cases x <;> cases y <;> simp_all [EpochFlag.rank]

/-- C9: the derived ordering on Epoch is a total order consistent with
equality — trichotomy, mutual exclusion, transitivity, and equality
exactly when instant and flag both match. -/
theorem C9_total_order (a b c : Epoch) :
    (Epoch.lt a b ∨ a = b ∨ Epoch.lt b a)
    ∧ ¬ (Epoch.lt a b ∧ a = b)
    ∧ ¬ (Epoch.lt b a ∧ a = b)
    ∧ ¬ (Epoch.lt a b ∧ Epoch.lt b a)
    ∧ (Epoch.lt a b → Epoch.lt b c → Epoch.lt a c)
    ∧ (a = b ↔ a.epoch = b.epoch ∧ a.flag = b.flag) := by
  obtain ⟨⟨d1, t1⟩, f1⟩ := a
  obtain ⟨⟨d2, t2⟩, f2⟩ := b
  obtain ⟨⟨d3, t3⟩, f3⟩ := c
  simp only [Epoch.lt, Epoch.mk.injEq, HifitimeEpoch.mk.injEq]
  refine ⟨?_, ?_, ?_, ?_, ?_, ?_⟩
  · rcases Int.lt_trichotomy d1 d2 with h | h | h
    · exact Or.inl (Or.inl h)
    · subst h
      rcases Nat.lt_trichotomy t1.rank t2.rank with h2 | h2 | h2
      · exact Or.inl (Or.inr ⟨rfl, Or.inl h2⟩)
      · have ht : t1 = t2 := tsRank_injective _ _ h2
        subst ht
        rcases Nat.lt_trichotomy f1.rank f2.rank with h3 | h3 | h3
        · exact Or.inl (Or.inr ⟨rfl, Or.inr ⟨rfl, h3⟩⟩)
        · have hf : f1 = f2 := flagRank_injective _ _ h3
          subst hf
          exact Or.inr (Or.inl ⟨⟨rfl, rfl⟩, rfl⟩)
        · exact Or.inr (Or.inr (Or.inr ⟨rfl, Or.inr ⟨rfl, h3⟩⟩))
      · exact Or.inr (Or.inr (Or.inr ⟨rfl, Or.inl h2⟩))
    · exact Or.inr (Or.inr (Or.inl h))
  · rintro ⟨hlt, ⟨hd, ht⟩, hf⟩
    subst hd
    subst ht
    subst hf
    rcases hlt with h | ⟨-, h | ⟨-, h⟩⟩ <;> omega
  · rintro ⟨hlt, ⟨hd, ht⟩, hf⟩
    subst hd
    subst ht
    subst hf
    rcases hlt with h | ⟨-, h | ⟨-, h⟩⟩ <;> omega
  · rintro ⟨h1, h2⟩
    rcases h1 with h1 | ⟨hd1, h1⟩ <;> rcases h2 with h2 | ⟨hd2, h2⟩
    · omega
    · omega
    · omega
    · rcases h1 with h1 | ⟨ht1, h1⟩ <;> rcases h2 with h2 | ⟨ht2, h2⟩ <;> omega
  · rintro (h1 | ⟨hd1, h1⟩) (h2 | ⟨hd2, h2⟩)
    · exact Or.inl (by omega)
    · exact Or.inl (by omega)
    · exact Or.inl (by omega)
    · subst hd1
      subst hd2
      rcases h1 with h1 | ⟨ht1, h1⟩ <;> rcases h2 with h2 | ⟨ht2, h2⟩
      · exact Or.inr ⟨rfl, Or.inl (by omega)⟩
      · exact Or.inr ⟨rfl, Or.inl (by omega)⟩
      · exact Or.inr ⟨rfl, Or.inl (by omega)⟩
      · exact Or.inr ⟨rfl, Or.inr ⟨by omega, by omega⟩⟩
  · trivial

/-- C2 (amended): a successfully parsed 6-token line carries flag Ok; a
7-token line applies a recognized flag token only when the seconds token
contains a decimal point, and keeps Ok when it does not. -/
theorem C2_flag_defaulting (s : List Char) (e : Epoch)
    (hok : Epoch.from_str s = .ok e) :
    ((tokenize s).length = 6 → e.flag = EpochFlag.Ok)
    ∧ ((tokenize s).length = 7 →
        (splitAtDot ((tokenize s).getD 5 []) = none → e.flag = EpochFlag.Ok)
        ∧ (∀ fl, flagFromStr ((tokenize s).getD 6 []) = some fl →
            splitAtDot ((tokenize s).getD 5 []) ≠ none → e.flag = fl)) := by
  obtain ⟨hlen, y0, m, d, hh, mi, ss, ns, hy0, hm, hd, hhh, hmi, hsf, hep, hfl1, hfl2⟩ :=
    parseTokens_ok_shape (tokenize s) e hok
  constructor
  · intro h6
    rcases hcase : splitAtDot ((tokenize s).getD 5 []) with _ | p
    · exact hfl1 hcase
    · have h := hfl2 (by rw [hcase]; simp)
      rw [if_neg (by omega)] at h
      exact h
  · intro h7
    constructor
    · exact hfl1
    · intro fl hfl hne
      have h := hfl2 hne
      rw [if_pos h7, hfl] at h
      exact h

/-- C2 witness: the line " 21 12 21  0  0 30.0000000  1" has 7 tokens, a
decimal point, flag token "1", and parses to flag PowerFailure. -/
theorem C2_flag_defaulting_witness :
    ((Epoch.from_gregorian_utc 2021 12 21 0 0 30 0).with_flag .PowerFailure).flag
      = EpochFlag.PowerFailure := by
  exact (C2_flag_defaulting (" 21 12 21  0  0 30.0000000  1".data)
      ((Epoch.from_gregorian_utc 2021 12 21 0 0 30 0).with_flag .PowerFailure) rfl).2
    (by decide) |>.2 EpochFlag.PowerFailure rfl (by decide)

/-- C1 (amended): for a successfully parsed line whose seconds token
splits at a decimal point with fractional value f, the Epoch's instant is
built with nanoseconds f scaled by 100000000 (token shorter than 7
characters) or by 100 (7 or more), reduced modulo 2^32 (u32 arithmetic). -/
theorem C1_fractional_scaling (s : List Char) (e : Epoch) (ip fp : List Char) (f : Nat)
    (hok : Epoch.from_str s = .ok e)
    (hdot : splitAtDot ((tokenize s).getD 5 []) = some (ip, fp))
    (hf : parseU32 fp = some f) :
    ∃ y0 m d hh mi ss,
      parseI32 ((tokenize s).getD 0 []) = some y0
      ∧ parseU8 ip = some ss
      ∧ e.epoch = hFromGregorianUtc (Epoch.normYear y0) m d hh mi ss
          ((f * (if ((tokenize s).getD 5 []).length < 7 then 100000000 else 100))
            % 4294967296) := by
  obtain ⟨hlen, y0, m, d, hh, mi, ss, ns, hy0, hm, hd, hhh, hmi, hsf, hep, hfl1, hfl2⟩ :=
    parseTokens_ok_shape (tokenize s) e hok
  simp only [Epoch.secondsField, hdot] at hsf
  rcases hip : parseU8 ip with _ | ss2
  · simp only [hip] at hsf
    exact Option.noConfusion hsf
  · simp only [hip, hf] at hsf
    have h2 := Option.some.inj hsf
    have h3 : ss2 = ss := congrArg Prod.fst h2
    have h4 : (f * (if ((tokenize s).getD 5 []).length < 7 then 100000000 else 100))
        % 4294967296 = ns := congrArg Prod.snd h2
    subst h3
    refine ⟨y0, m, d, hh, mi, ss2, hy0, rfl, ?_⟩
    rw [hep, h4]

/-- C1 witness: fractional substring "1" in the 3-character token "0.1"
yields 100000000 ns; fractional substring "1234567" in the 10-character
token "39.1234567" yields 123456700 ns. -/
theorem C1_fractional_scaling_witness :
    (∃ y0 m d hh mi ss,
      parseI32 ((tokenize ("20 12 31 23 45  0.1".data)).getD 0 []) = some y0
      ∧ parseU8 ("0".data) = some ss
      ∧ (Epoch.from_gregorian_utc 2020 12 31 23 45 0 100000000).epoch
        = hFromGregorianUtc (Epoch.normYear y0) m d hh mi ss
            ((1 * (if ((tokenize ("20 12 31 23 45  0.1".data)).getD 5 []).length < 7
                   then 100000000 else 100)) % 4294967296))
    ∧ (∃ y0 m d hh mi ss,
      parseI32 ((tokenize (" 21  1  1  0  7 39.1234567  0".data)).getD 0 []) = some y0
      ∧ parseU8 ("39".data) = some ss
      ∧ (Epoch.from_gregorian_utc 2021 1 1 0 7 39 123456700).epoch
        = hFromGregorianUtc (Epoch.normYear y0) m d hh mi ss
            ((1234567 * (if ((tokenize (" 21  1  1  0  7 39.1234567  0".data)).getD 5 []).length < 7
                         then 100000000 else 100)) % 4294967296)) := by
  constructor
  · exact C1_fractional_scaling ("20 12 31 23 45  0.1".data)
      (Epoch.from_gregorian_utc 2020 12 31 23 45 0 100000000)
      ("0".data) ("1".data) 1 rfl rfl rfl
  · exact C1_fractional_scaling (" 21  1  1  0  7 39.1234567  0".data)
      (Epoch.from_gregorian_utc 2021 1 1 0 7 39 123456700)
      ("39".data) ("1234567".data) 1234567 rfl rfl rfl

/-- C6: for a successfully parsed line with calendar fields in canonical
ranges, a parsed year below 100 projects to calendar year y + 2000 and a
year of 100 or more projects to itself. -/
theorem C6_two_digit_year (s : List Char) (e : Epoch) (y0 : Int) (m d hh mi ss ns : Nat)
    (hok : Epoch.from_str s = .ok e)
    (hy : parseI32 ((tokenize s).getD 0 []) = some y0)
    (hm : parseU8 ((tokenize s).getD 1 []) = some m)
    (hd : parseU8 ((tokenize s).getD 2 []) = some d)
    (hhh : parseU8 ((tokenize s).getD 3 []) = some hh)
    (hmi : parseU8 ((tokenize s).getD 4 []) = some mi)
    (hsf : Epoch.secondsField ((tokenize s).getD 5 []) = some (ss, ns))
    (hm12 : 1 ≤ m ∧ m ≤ 12)
    (hd31 : 1 ≤ d ∧ d ≤ daysInMonth (isLeap (Epoch.normYear y0)) m)
    (hhh24 : hh < 24) (hmi60 : mi < 60) (hss60 : ss < 60) (hns : ns < 1000000000) :
    (Epoch.to_gregorian_utc e).1 = (if y0 < 100 then y0 + 2000 else y0) := by
  obtain ⟨hlen, y1, m1, d1, hh1, mi1, ss1, ns1, hy', hm', hd', hhh', hmi', hsf', hep, -, -⟩ :=
    parseTokens_ok_shape (tokenize s) e hok
  rw [hy] at hy'
  rw [hm] at hm'
  rw [hd] at hd'
  rw [hhh] at hhh'
  rw [hmi] at hmi'
  rw [hsf] at hsf'
  obtain rfl := Option.some.inj hy'
  obtain rfl := Option.some.inj hm'
  obtain rfl := Option.some.inj hd'
  obtain rfl := Option.some.inj hhh'
  obtain rfl := Option.some.inj hmi'
  have hpair := Option.some.inj hsf'
  have hss1 : ss = ss1 := congrArg Prod.fst hpair
  have hns1 : ns = ns1 := congrArg Prod.snd hpair
  subst hss1
  subst hns1
  have hrt := hToGregorianUtc_hFromGregorianUtc (Epoch.normYear y0) m d hh mi ss ns
    hm12 hd31 hhh24 hmi60 hss60 hns
  have hproj : Epoch.to_gregorian_utc e
      = hToGregorianUtc (hFromGregorianUtc (Epoch.normYear y0) m d hh mi ss ns) := by
    unfold Epoch.to_gregorian_utc
    rw [hep]
  rw [hproj, hrt]
  rfl

/-- C6 witness: the spec's example "20 12 31 23 45  0.0" has year token
20 < 100 and projects to calendar year 2020. -/
theorem C6_two_digit_year_witness :
    (Epoch.to_gregorian_utc (Epoch.from_gregorian_utc 2020 12 31 23 45 0 0)).1
      = (if (20 : Int) < 100 then 20 + 2000 else 20) := by
  exact C6_two_digit_year ("20 12 31 23 45  0.0".data)
    (Epoch.from_gregorian_utc 2020 12 31 23 45 0 0) 20 12 31 23 45 0 0
    rfl rfl rfl rfl rfl rfl rfl (by decide) (by decide)
    (by decide) (by decide) (by decide) (by decide)

lemma getD_take_eq : ∀ (l : List (List Char)) (n i : Nat), i < n →
    (l.take n).getD i [] = l.getD i [] := by
  intro l
  induction l with
  | nil =>
    intro n i h
    simp
  | cons a l ih =>
    intro n i h
    cases n with
    | zero => omega
    | succ n =>
      cases i with
      | zero => simp
      | succ i =>
        simp only [List.take_succ_cons, List.getD_cons_succ]
        exact ih n i (by omega)

/-- C7: on a 7-token line whose first six tokens parse, a flag token the
flag parser rejects does not fail the parse — the result equals the
6-token parse, with the default Ok flag. -/
theorem C7_lenient_flag (s : List Char) (e : Epoch)
    (h7 : (tokenize s).length = 7)
    (h6 : Epoch.parseTokens ((tokenize s).take 6) = .ok e)
    (hfl : flagFromStr ((tokenize s).getD 6 []) = none) :
    Epoch.from_str s = .ok e ∧ e.flag = EpochFlag.Ok := by
  have hlen6 : ((tokenize s).take 6).length = 6 := by
    rw [List.length_take]
    omega
  have hflag : e.flag = EpochFlag.Ok := by
    obtain ⟨-, y0, m, d, hh, mi, ss, ns, -, -, -, -, -, -, -, hf1, hf2⟩ :=
      parseTokens_ok_shape _ e h6
    rcases hc : splitAtDot (((tokenize s).take 6).getD 5 []) with _ | p
    · exact hf1 hc
    · have h := hf2 (by rw [hc]; simp)
      rw [if_neg (by simp [hlen6])] at h
      exact h
  refine ⟨?_, hflag⟩
  unfold Epoch.parseTokens at h6
  rw [if_neg (by simp [hlen6])] at h6
  rw [hlen6] at h6
  rw [getD_take_eq _ 6 0 (by omega), getD_take_eq _ 6 1 (by omega),
    getD_take_eq _ 6 2 (by omega), getD_take_eq _ 6 3 (by omega),
    getD_take_eq _ 6 4 (by omega), getD_take_eq _ 6 5 (by omega)] at h6
  unfold Epoch.from_str Epoch.parseTokens
  rw [if_neg (by simp [h7])]
  split at h6
  · exact absurd h6 (by simp)
  · next y0 hy0 =>
    split at h6
    · exact absurd h6 (by simp)
    · next m hm =>
      split at h6
      · exact absurd h6 (by simp)
      · next d hd =>
        split at h6
        · exact absurd h6 (by simp)
        · next hh hhh =>
          split at h6
          · exact absurd h6 (by simp)
          · next mi hmi =>
            split at h6
            · next ip fp hdot =>
              split at h6
              · exact absurd h6 (by simp)
              · next ss hss =>
                split at h6
                · exact absurd h6 (by simp)
                · next f hf =>
                  rw [if_neg (by omega)] at h6
                  rw [if_pos h7]
                  simp only [hfl]
                  exact h6
            · next hdot =>
              split at h6
              · next ss hss =>
                exact h6
              · exact absurd h6 (by simp)

/-- C7 witness: a rejected flag token "X" on a 7-token line leaves the
parse equal to the 6-token parse, with flag Ok. -/
theorem C7_lenient_flag_witness :
    Epoch.from_str ("2021 1 1 0 0 30.0000000 X".data)
      = .ok (Epoch.from_gregorian_utc 2021 1 1 0 0 30 0)
    ∧ (Epoch.from_gregorian_utc 2021 1 1 0 0 30 0).flag = EpochFlag.Ok := by
  exact C7_lenient_flag ("2021 1 1 0 0 30.0000000 X".data)
    (Epoch.from_gregorian_utc 2021 1 1 0 0 30 0) (by decide) rfl rfl

end Rinex
